import Mathlib

/-!
Verification development for the caller-frontend audio subsystem.

The definitions below are shallow embeddings of the TypeScript sources:
* `src/utils/AudioUtils.ts` — mu-law codec (`linearToMulaw`, `MULAW_DECODE_TABLE`,
  `convertMuLawToAudio`) and the `AudioQueue` class;
* `src/services/WebSocketService.ts` — the `useWebSocketAudio` hook: inbound
  message dispatch (`socket.onmessage`), the connect / reconnect state machine
  (`connect`, `socket.onopen`, `socket.onclose`) and `sendMark`.

JavaScript `number` arithmetic in the codec is modelled with real numbers
(`ℝ`); at every input used in a theorem below the double-precision computation
performed by the source is exact or robustly rounds to the same byte, so the
idealisation does not change any stated value.  Stateful classes become
explicit state-passing functions; asynchronous completions (an
`AudioContext.resume()` promise resolving) become explicit events.
-/

namespace CallerFrontend


/-! ## Mu-law codec (`src/utils/AudioUtils.ts`) -/

/-- Embedding of `linearToMulaw` (AudioUtils.ts lines 4-31).  The JS code:
takes `Math.abs`, clips at `1.0`, scales by `32767`, computes
`sign = pcmSample < 0 ? 0x80 : 0`, returns `sign` alone when the scaled
magnitude is below `0.001`, otherwise compands with
`Math.log(1 + MU * sample / 32767) / Math.log(1 + MU)`, quantises with
`Math.floor(sample * 255 + 0.5)` (clipped at 255) and returns
`sign | (255 - value)`. -/
noncomputable def linearToMulaw (pcmSample : ℝ) : ℕ :=
  let MU : ℝ := 255
  let sample0 : ℝ := |pcmSample|
  let sample1 : ℝ := if sample0 > 1.0 then 1.0 else sample0
  let sample2 : ℝ := sample1 * 32767
  let sign : ℕ := if pcmSample < 0 then 128 else 0
  if sample2 < 0.001 then sign
  else
    let sample3 : ℝ := Real.log (1.0 + MU * sample2 / 32767) / Real.log (1.0 + MU)
    let value0 : ℤ := ⌊sample3 * 255 + 0.5⌋
    let value : ℤ := if value0 > 255 then 255 else value0
    sign ||| (255 - value).toNat

/-- The 256-entry `MULAW_DECODE_TABLE` of AudioUtils.ts (lines 123-156),
the standard G.711 mu-law expansion table: indices 0-127 hold the negative
branch, indices 128-255 the positive branch. -/
def MULAW_DECODE_TABLE : List ℤ :=
  [-32124, -31100, -30076, -29052, -28028, -27004, -25980, -24956,
   -23932, -22908, -21884, -20860, -19836, -18812, -17788, -16764,
   -15996, -15484, -14972, -14460, -13948, -13436, -12924, -12412,
   -11900, -11388, -10876, -10364, -9852, -9340, -8828, -8316,
   -7932, -7676, -7420, -7164, -6908, -6652, -6396, -6140,
   -5884, -5628, -5372, -5116, -4860, -4604, -4348, -4092,
   -3900, -3772, -3644, -3516, -3388, -3260, -3132, -3004,
   -2876, -2748, -2620, -2492, -2364, -2236, -2108, -1980,
   -1884, -1820, -1756, -1692, -1628, -1564, -1500, -1436,
   -1372, -1308, -1244, -1180, -1116, -1052, -988, -924,
   -876, -844, -812, -780, -748, -716, -684, -652,
   -620, -588, -556, -524, -492, -460, -428, -396,
   -372, -356, -340, -324, -308, -292, -276, -260,
   -244, -228, -212, -196, -180, -164, -148, -132,
   -120, -112, -104, -96, -88, -80, -72, -64,
   -56, -48, -40, -32, -24, -16, -8, 0,
   32124, 31100, 30076, 29052, 28028, 27004, 25980, 24956,
   23932, 22908, 21884, 20860, 19836, 18812, 17788, 16764,
   15996, 15484, 14972, 14460, 13948, 13436, 12924, 12412,
   11900, 11388, 10876, 10364, 9852, 9340, 8828, 8316,
   7932, 7676, 7420, 7164, 6908, 6652, 6396, 6140,
   5884, 5628, 5372, 5116, 4860, 4604, 4348, 4092,
   3900, 3772, 3644, 3516, 3388, 3260, 3132, 3004,
   2876, 2748, 2620, 2492, 2364, 2236, 2108, 1980,
   1884, 1820, 1756, 1692, 1628, 1564, 1500, 1436,
   1372, 1308, 1244, 1180, 1116, 1052, 988, 924,
   876, 844, 812, 780, 748, 716, 684, 652,
   620, 588, 556, 524, 492, 460, 428, 396,
   372, 356, 340, 324, 308, 292, 276, 260,
   244, 228, 212, 196, 180, 164, 148, 132,
   120, 112, 104, 96, 88, 80, 72, 64,
   56, 48, 40, 32, 24, 16, 8, 0]

/-- Per-byte decode step of `convertMuLawToAudio` (AudioUtils.ts line 176):
`pcmData[i] = MULAW_DECODE_TABLE[bytes[i]] / 32768.0`. -/
def mulawDecode (b : ℕ) : ℚ :=
  (MULAW_DECODE_TABLE.getD b 0 : ℚ) / 32768

/-! ## AudioQueue model (`src/utils/AudioUtils.ts`, class `AudioQueue`)

The class fields become a record; the `Map<string, string[]>` fields become
insertion-ordered association lists (matching JS `Map` semantics).  The
browser `AudioContext` is `Option CtxState`; its asynchronous
`resume().then(...)` completion is modelled by the explicit `resumeComplete`
event, and the state of a freshly constructed context (which the browser
chooses) is a `fresh` parameter.  The ghost field `played` records every
chunk handed to a one-shot buffer source (`source.start()`), and
`addChunkCalls` counts invocations of `addChunk`. -/

inductive CtxState
  | running
  | suspended
deriving DecidableEq

structure Chunk where
  streamId : String
  payload : String
  isVendor : Bool
deriving DecidableEq

/-- JS `Map<string, string[]>` as an insertion-ordered association list. -/
abbrev ChunkMap := List (String × List String)

def mapHas (m : ChunkMap) (k : String) : Bool :=
  m.any (fun p => p.1 == k)

def mapGetD (m : ChunkMap) (k : String) : List String :=
  match m.find? (fun p => p.1 == k) with
  | some p => p.2
  | none => []

def mapSet (m : ChunkMap) (k : String) (v : List String) : ChunkMap :=
  if mapHas m k then m.map (fun p => if p.1 == k then (k, v) else p)
  else m ++ [(k, v)]

/-- The mutable fields of class `AudioQueue` (AudioUtils.ts lines 201-210),
plus the ghost fields `played` and `addChunkCalls`. -/
structure AudioQueueState where
  clientChunks : ChunkMap
  vendorChunks : ChunkMap
  audioContext : Option CtxState
  currentClientStreamId : Option String
  isClientPlaying : Bool
  isVendorPlaying : Bool
  currentVendorStreamId : Option String
  pendingChunks : List Chunk
  isAudioContextReady : Bool
  played : List Chunk
  addChunkCalls : ℕ
deriving DecidableEq

/-- Constructor state in the browser-policy case where no `AudioContext` can
start before a user gesture (the other constructor outcome, a running
context, is reached by a later `initializeAudio` / `resumeComplete`). -/
def AudioQueueState.init : AudioQueueState :=
  { clientChunks := [], vendorChunks := [], audioContext := none,
    currentClientStreamId := none, isClientPlaying := false,
    isVendorPlaying := false, currentVendorStreamId := none,
    pendingChunks := [], isAudioContextReady := false, played := [],
    addChunkCalls := 0 }

/-- Embedding of `AudioQueue.playAudioChunk` (lines 416-461): if the context is absent or
not running, push onto `pendingChunks` and return; otherwise set the
per-track playing flags and stream id, then decode and start a one-shot
buffer source (recorded in the ghost `played` list). -/
def playAudioChunk (st : AudioQueueState) (streamId payload : String)
    (isVendor : Bool) : AudioQueueState :=
  if st.audioContext ≠ some CtxState.running then
    { st with pendingChunks := st.pendingChunks ++ [⟨streamId, payload, isVendor⟩] }
  else if isVendor then
    { st with isVendorPlaying := true, currentVendorStreamId := some streamId,
              played := st.played ++ [⟨streamId, payload, isVendor⟩] }
  else
    { st with isClientPlaying := true, currentClientStreamId := some streamId,
              played := st.played ++ [⟨streamId, payload, isVendor⟩] }

/-- Embedding of `AudioQueue.playPendingChunks` (lines 279-329): without a running context
it only requests an asynchronous resume (completion = `resumeComplete`) and
returns unchanged; with a running context it forces the ready flag, takes a
copy of `pendingChunks`, empties it, and plays every copied chunk. -/
def playPendingChunks (st : AudioQueueState) : AudioQueueState :=
  if st.audioContext = some CtxState.running then
    let st1 := { st with isAudioContextReady := true }
    let chunksToPlay := st1.pendingChunks
    let st2 := { st1 with pendingChunks := [] }
    chunksToPlay.foldl (fun s c => playAudioChunk s c.streamId c.payload c.isVendor) st2
  else st

/-- Embedding of `AudioQueue.initializeAudio` (lines 332-371): if already ready and
running, replay pending chunks and return `true`; otherwise create a context
(state chosen by the browser, the `fresh` parameter) when absent, request a
resume when not running (completion = `resumeComplete`), force the ready
flag, replay pending chunks, and return `true`. -/
def initializeAudio (fresh : CtxState) (st : AudioQueueState) :
    AudioQueueState × Bool :=
  if st.isAudioContextReady = true ∧ st.audioContext = some CtxState.running then
    (playPendingChunks st, true)
  else
    let st1 := if st.audioContext = none then { st with audioContext := some fresh } else st
    let st2 := { st1 with isAudioContextReady := true }
    (playPendingChunks st2, true)

/-- Completion of an `AudioContext.resume()` promise (the `.then` callbacks
at lines 233-240, 289-297 and 348-356): the browser moves the context to
`running`, then the callback marks ready and replays pending chunks. -/
def resumeComplete (st : AudioQueueState) : AudioQueueState :=
  if st.audioContext = none then st
  else
    playPendingChunks
      { st with audioContext := some CtxState.running, isAudioContextReady := true }

/-- Store stage of `AudioQueue.addChunk` (lines 376-392): put the payload in
the per-track stream map — overwriting index `chunk` when that index is
below the stored length, else appending — and count the call. -/
def addChunkStore (st : AudioQueueState) (streamId payload : String)
    (chunk : Option ℕ) (isVendor : Bool) : AudioQueueState :=
  let chunks0 := if isVendor then st.vendorChunks else st.clientChunks
  let chunks1 := if mapHas chunks0 streamId then chunks0 else mapSet chunks0 streamId []
  let streamChunks := mapGetD chunks1 streamId
  let streamChunks1 :=
    match chunk with
    | some c =>
        if c < streamChunks.length then streamChunks.set c payload
        else streamChunks ++ [payload]
    | none => streamChunks ++ [payload]
  let chunks2 := mapSet chunks1 streamId streamChunks1
  let st1 := if isVendor then { st with vendorChunks := chunks2 }
             else { st with clientChunks := chunks2 }
  { st1 with addChunkCalls := st1.addChunkCalls + 1 }

/-- Dispatch stage of `AudioQueue.addChunk` (lines 400-407): play
immediately when ready and running, otherwise append to the pending FIFO. -/
def addChunkDispatch (st : AudioQueueState) (streamId payload : String)
    (isVendor : Bool) : AudioQueueState :=
  if st.isAudioContextReady = true ∧ st.audioContext = some CtxState.running then
    playAudioChunk st streamId payload isVendor
  else
    { st with pendingChunks := st.pendingChunks ++ [⟨streamId, payload, isVendor⟩] }

/-- Embedding of `AudioQueue.addChunk` (lines 374-413): store the payload in the
per-track stream map, then opportunistically initialize audio when not
ready/running (lines 394-398), then either play immediately or append to
`pendingChunks`. -/
def addChunk (st : AudioQueueState) (streamId payload : String)
    (chunk : Option ℕ) (source : Option String) (fresh : CtxState) :
    AudioQueueState :=
  let isVendor : Bool := source == some "vendor"
  let st2 := addChunkStore st streamId payload chunk isVendor
  let st3 := if st2.isAudioContextReady = false ∨ st2.audioContext ≠ some CtxState.running
             then (initializeAudio fresh st2).1 else st2
  addChunkDispatch st3 streamId payload isVendor

/-- Embedding of `AudioQueue.clear` (lines 560-568). -/
def AudioQueueState.clear (st : AudioQueueState) : AudioQueueState :=
  { st with clientChunks := [], vendorChunks := [], pendingChunks := [],
            isClientPlaying := false, isVendorPlaying := false,
            currentClientStreamId := none, currentVendorStreamId := none }

/-- Externally triggerable queue operations: an `addChunk` call, an
`initializeAudio` call (user gesture / start event), and the completion of
an asynchronous context resume. -/
inductive QueueOp
  | add (streamId payload : String) (chunk : Option ℕ) (source : Option String)
      (fresh : CtxState)
  | initAudio (fresh : CtxState)
  | resumeOk
deriving DecidableEq

def stepQueue (st : AudioQueueState) : QueueOp → AudioQueueState
  | QueueOp.add sid p c src fresh => addChunk st sid p c src fresh
  | QueueOp.initAudio fresh => (initializeAudio fresh st).1
  | QueueOp.resumeOk => resumeComplete st

def runQueue (st : AudioQueueState) (ops : List QueueOp) : AudioQueueState :=
  ops.foldl stepQueue st

/-- The chunks of the `add` operations of a trace, in trace order. -/
def arrivals : List QueueOp → List Chunk
  | [] => []
  | QueueOp.add sid p _ src _ :: rest =>
      ⟨sid, p, src == some "vendor"⟩ :: arrivals rest
  | _ :: rest => arrivals rest

/-- Total number of chunks held anywhere in the queue: stored per-stream
buffers of both tracks plus the pending FIFO. -/
def storedCount (m : ChunkMap) : ℕ :=
  (m.map (fun p => p.2.length)).sum

def chunkCount (st : AudioQueueState) : ℕ :=
  storedCount st.clientChunks + storedCount st.vendorChunks + st.pendingChunks.length

/-- Invariant of every reachable queue state: with a ready, running context
the pending FIFO is empty (every transition into that configuration drains
the FIFO within the same step). -/
def QueueInv (st : AudioQueueState) : Prop :=
  st.isAudioContextReady = true → st.audioContext = some CtxState.running →
    st.pendingChunks = []

/-! ## Inbound message dispatch (`src/services/WebSocketService.ts`,
`socket.onmessage`, lines 222-319)

The hook state relevant to dispatch: the audio queue, the playback gate
`canPlayAudioRef`, the `activeCall` React state, and (as a counter) the
`messages` list. -/

/-- The `activeCall` state of `useWebSocketAudio` (lines 82-92). -/
structure ActiveCall where
  isActive : Bool
  callId : Option String
  contactId : Option String
  contactName : Option String
deriving DecidableEq

/-- Parsed inbound frames dispatched by `socket.onmessage`:
media / start / stop / communication (`handle_communications` or `ping`) /
unknown event kinds. -/
inductive InboundMsg
  | media (streamSid payload : String) (chunk : Option ℕ) (source : Option String)
  | start (callId contactId : String) (contactName : Option String)
  | stop (callId : String) (reason : Option String)
  | comm
  | unknown
deriving DecidableEq

structure SessionState where
  queue : AudioQueueState
  canPlayAudio : Bool
  activeCall : ActiveCall
  mediaMessages : ℕ
deriving DecidableEq

def SessionState.init : SessionState :=
  { queue := AudioQueueState.init, canPlayAudio := false,
    activeCall := { isActive := false, callId := none, contactId := none,
                    contactName := none },
    mediaMessages := 0 }

/-- Embedding of the `socket.onmessage` dispatch (lines 244-315): a media frame is appended
to the UI message list, audio initialization is attempted when the queue is
not ready and not running (line 254), and the chunk is forwarded to
`addChunk` only when `canPlayAudioRef` is true (lines 260-266); a start
frame records the call, initializes audio and opens the gate (lines
278-291); a stop frame resets the call, clears the queue and closes the
gate (lines 293-306); communication and unknown frames are logged only. -/
def handleMessage (fresh : CtxState) (st : SessionState) : InboundMsg → SessionState
  | InboundMsg.media sid p c src =>
    let q1 := if st.queue.isAudioContextReady = false
                  ∧ st.queue.audioContext ≠ some CtxState.running
              then (initializeAudio fresh st.queue).1 else st.queue
    if st.canPlayAudio = true then
      { st with mediaMessages := st.mediaMessages + 1,
                queue := addChunk q1 sid p c src fresh }
    else { st with mediaMessages := st.mediaMessages + 1, queue := q1 }
  | InboundMsg.start cid ctid name =>
    { st with activeCall := { isActive := true, callId := some cid,
                              contactId := some ctid, contactName := name },
              queue := (initializeAudio fresh st.queue).1,
              canPlayAudio := true }
  | InboundMsg.stop _ _ =>
    { st with activeCall := { isActive := false, callId := none,
                              contactId := none, contactName := none },
              queue := st.queue.clear,
              canPlayAudio := false }
  | InboundMsg.comm => st
  | InboundMsg.unknown => st

/-- Run of the dispatcher over a trace of inbound frames, each paired with
the state a freshly created `AudioContext` would start in. -/
def runSession (evs : List (CtxState × InboundMsg)) : SessionState :=
  evs.foldl (fun st e => handleMessage e.1 st e.2) SessionState.init

/-! ## Transport session (`src/services/WebSocketService.ts`: `connect`,
`socket.onopen`, `socket.onclose`, `sendMark`)

The refs of the hook become record fields; `socketRef` is `Option
ReadyState` (the ready state of the held `WebSocket`); `reconnectTimeout`
holds the delay of the currently scheduled reconnect timer, if any; the
ghost `socketsCreated` counts `new WebSocket(...)` constructions. -/

inductive ReadyState
  | CONNECTING
  | OPEN
  | CLOSING
  | CLOSED
deriving DecidableEq

inductive ConnStatus
  | disconnected
  | connecting
  | connected
  | error
deriving DecidableEq

def maxReconnectAttempts : ℕ := 5

def CONNECTION_COOLDOWN_MS : ℕ := 5000

structure TransportState where
  socket : Option ReadyState
  status : ConnStatus
  reconnectTimeout : Option ℕ
  reconnectAttempts : ℕ
  isReconnecting : Bool
  hasConnected : Bool
  connectionAttemptTimestamp : ℕ
  connectionInProgress : Bool
  heartbeatActive : Bool
  socketsCreated : ℕ
deriving DecidableEq

def TransportState.init : TransportState :=
  { socket := none, status := ConnStatus.disconnected, reconnectTimeout := none,
    reconnectAttempts := 0, isReconnecting := false, hasConnected := false,
    connectionAttemptTimestamp := 0, connectionInProgress := false,
    heartbeatActive := false, socketsCreated := 0 }

/-- Embedding of `connect` (lines 122-188): returns unchanged when the socket is already
OPEN or CONNECTING, when a reconnect is in progress, within the 5-second
cooldown, or when a connection attempt is already in flight; otherwise it
marks the attempt, clears any scheduled reconnect, resets the attempt
counter (the source guards this reset with `!isReconnectingRef.current`,
which the third guard above has already established), closes any stale
socket and creates a new one in CONNECTING state. -/
def connect (now : ℕ) (st : TransportState) : TransportState :=
  if st.socket = some ReadyState.OPEN then st
  else if st.socket = some ReadyState.CONNECTING then st
  else if st.isReconnecting = true then st
  else if now - st.connectionAttemptTimestamp < CONNECTION_COOLDOWN_MS then st
  else if st.connectionInProgress = true then st
  else
    { st with connectionInProgress := true,
              connectionAttemptTimestamp := now,
              reconnectTimeout := none,
              reconnectAttempts := 0,
              status := ConnStatus.connecting,
              socket := some ReadyState.CONNECTING,
              socketsCreated := st.socketsCreated + 1 }

/-- Embedding of `socket.onopen` (lines 202-220): the browser moves the socket to OPEN;
the handler sets status connected, clears the in-progress flag, resets the
attempt counter and the reconnecting flag, and starts the heartbeat. -/
def onopen (st : TransportState) : TransportState :=
  { st with socket := some ReadyState.OPEN, status := ConnStatus.connected,
            connectionInProgress := false, reconnectAttempts := 0,
            isReconnecting := false, heartbeatActive := true }

/-- The backoff expression of line 355:
`Math.min(1000 * Math.pow(2, reconnectAttemptsRef.current - 1), 30000)`,
evaluated after the attempt counter has been incremented. -/
def backoffTime (attempts : ℕ) : ℕ :=
  min (1000 * 2 ^ (attempts - 1)) 30000

/-- Embedding of `socket.onclose` (lines 334-378): status disconnected, socket dropped,
in-progress flag and heartbeat cleared (these common updates precede the
branch in the source and touch no field the branch condition reads); then,
when the close code is not 1000 and the attempt counter is below the
ceiling, the counter is incremented and a reconnect is scheduled after the
backoff delay; otherwise no reconnect is scheduled. -/
def onclose (code : ℕ) (st : TransportState) : TransportState :=
  if code ≠ 1000 ∧ st.reconnectAttempts < maxReconnectAttempts then
    { st with status := ConnStatus.disconnected, socket := none,
              connectionInProgress := false, heartbeatActive := false,
              reconnectAttempts := st.reconnectAttempts + 1,
              isReconnecting := true, hasConnected := false,
              reconnectTimeout := some (backoffTime (st.reconnectAttempts + 1)) }
  else
    { st with status := ConnStatus.disconnected, socket := none,
              connectionInProgress := false, heartbeatActive := false,
              isReconnecting := false, hasConnected := false }

/-- JS truthiness of a `string | null` value: `null` and `""` are falsy. -/
def jsFalsy : Option String → Bool
  | none => true
  | some s => s == ""

/-- Outbound mark frame (lines 48-54, 503-509). -/
structure MarkMessage where
  streamSid : String
  markName : String
deriving DecidableEq

/-- Embedding of `sendMark` (lines 497-513): when the socket is not OPEN or
`activeCall.callId` is falsy it logs an error and returns without sending
(and without throwing); otherwise it sends a mark frame whose `streamSid`
is the active call id.  The returned value is the sent frame, if any. -/
def sendMark (socket : Option ReadyState) (activeCall : ActiveCall)
    (markName : String) : Option MarkMessage :=
  if socket ≠ some ReadyState.OPEN ∨ jsFalsy activeCall.callId = true then none
  else some { streamSid := activeCall.callId.getD "", markName := markName }

/-- While the playback gate is false, the queue holds no chunks. -/
def GateInv (st : SessionState) : Prop :=
  st.canPlayAudio = false → chunkCount st.queue = 0

/-- Trace of Scenario C: start, three media frames, stop. -/
def scenarioC : List (CtxState × InboundMsg) :=
  [(CtxState.running, InboundMsg.start "call1" "contact1" none),
   (CtxState.running, InboundMsg.media "s1" "a" none none),
   (CtxState.running, InboundMsg.media "s1" "b" none none),
   (CtxState.running, InboundMsg.media "s1" "c" none none),
   (CtxState.running, InboundMsg.stop "call1" none)]

/-- A ready, running queue holding one pending chunk. -/
def demoQueueState : AudioQueueState :=
  { AudioQueueState.init with
      audioContext := some CtxState.running,
      isAudioContextReady := true,
      pendingChunks := [⟨"s1", "p1", false⟩] }

/-! ## Lemmas and claim theorems -/

/-! ### Codec evaluation lemmas -/

theorem log256_pos : 0 < Real.log 256 :=
  Real.log_pos (by norm_num)

theorem linearToMulaw_one : linearToMulaw 1 = 0 := by
  simp only [linearToMulaw, abs_one]
  rw [if_neg (by norm_num : ¬ ((1 : ℝ) > 1.0))]
  rw [if_neg (by norm_num : ¬ ((1 : ℝ) < 0))]
  rw [if_neg (by norm_num : ¬ ((1 : ℝ) * 32767 < 0.001))]
  have harg : (1.0 : ℝ) + 255 * (1 * 32767) / 32767 = 256 := by norm_num
  have hmu : (1.0 : ℝ) + 255 = 256 := by norm_num
  rw [harg, hmu]
  have hdiv : Real.log 256 / Real.log 256 = 1 := div_self (ne_of_gt log256_pos)
  rw [hdiv]
  have hfloor : ⌊(1 : ℝ) * 255 + 0.5⌋ = 255 := by
    rw [Int.floor_eq_iff]
    constructor <;> norm_num
  rw [hfloor]
  norm_num

theorem linearToMulaw_neg_one : linearToMulaw (-1) = 128 := by
  have habs : |(-1 : ℝ)| = 1 := by rw [abs_neg, abs_one]
  simp only [linearToMulaw, habs]
  rw [if_neg (by norm_num : ¬ ((1 : ℝ) > 1.0))]
  rw [if_pos (by norm_num : (-1 : ℝ) < 0)]
  rw [if_neg (by norm_num : ¬ ((1 : ℝ) * 32767 < 0.001))]
  have harg : (1.0 : ℝ) + 255 * (1 * 32767) / 32767 = 256 := by norm_num
  have hmu : (1.0 : ℝ) + 255 = 256 := by norm_num
  rw [harg, hmu]
  have hdiv : Real.log 256 / Real.log 256 = 1 := div_self (ne_of_gt log256_pos)
  rw [hdiv]
  have hfloor : ⌊(1 : ℝ) * 255 + 0.5⌋ = 255 := by
    rw [Int.floor_eq_iff]
    constructor <;> norm_num
  rw [hfloor]
  norm_num

theorem linearToMulaw_zero : linearToMulaw 0 = 0 := by
  simp only [linearToMulaw, abs_zero]
  rw [if_neg (by norm_num : ¬ ((0 : ℝ) > 1.0))]
  rw [if_neg (by norm_num : ¬ ((0 : ℝ) < 0))]
  rw [if_pos (by norm_num : (0 : ℝ) * 32767 < 0.001)]

/-- At `pcmSample = 1/85` the companding argument is exactly
`1 + 255 * (32767/85) / 32767 = 4`, and `log 4 / log 256 = 1/4`, so the
quantised value is `⌊64.25⌋ = 64` and the byte is `255 - 64 = 191`. -/
theorem linearToMulaw_one_div_85 : linearToMulaw (1 / 85) = 191 := by
  have habs : |(1 / 85 : ℝ)| = 1 / 85 := abs_of_pos (by norm_num)
  simp only [linearToMulaw, habs]
  rw [if_neg (by norm_num : ¬ ((1 / 85 : ℝ) > 1.0))]
  rw [if_neg (by norm_num : ¬ ((1 / 85 : ℝ) < 0))]
  rw [if_neg (by norm_num : ¬ ((1 / 85 : ℝ) * 32767 < 0.001))]
  have harg : (1.0 : ℝ) + 255 * (1 / 85 * 32767) / 32767 = 4 := by norm_num
  have hmu : (1.0 : ℝ) + 255 = 256 := by norm_num
  rw [harg, hmu]
  have h256 : Real.log 256 = 4 * Real.log 4 := by
    rw [show (256 : ℝ) = 4 ^ (4 : ℕ) by norm_num, Real.log_pow]
    push_cast
    ring
  have hl4 : Real.log 4 ≠ 0 := ne_of_gt (Real.log_pos (by norm_num))
  have hdiv : Real.log 4 / Real.log 256 = 1 / 4 := by
    rw [h256]
    field_simp
    ring
  rw [hdiv]
  have hfloor : ⌊(1 / 4 : ℝ) * 255 + 0.5⌋ = 64 := by
    rw [Int.floor_eq_iff]
    constructor <;> norm_num
  rw [hfloor]
  norm_num
  rfl

/-! ### Queue lemmas -/

theorem playAudioChunk_running (st : AudioQueueState) (sid p : String) (v : Bool)
    (h : st.audioContext = some CtxState.running) :
    (playAudioChunk st sid p v).played = st.played ++ [⟨sid, p, v⟩] ∧
    (playAudioChunk st sid p v).pendingChunks = st.pendingChunks ∧
    (playAudioChunk st sid p v).audioContext = st.audioContext ∧
    (playAudioChunk st sid p v).isAudioContextReady = st.isAudioContextReady ∧
    (playAudioChunk st sid p v).clientChunks = st.clientChunks ∧
    (playAudioChunk st sid p v).vendorChunks = st.vendorChunks ∧
    (playAudioChunk st sid p v).addChunkCalls = st.addChunkCalls := by
  cases v <;> simp [playAudioChunk, h]

theorem foldPlay_running : ∀ (l : List Chunk) (st : AudioQueueState),
    st.audioContext = some CtxState.running →
    (let r := l.foldl (fun s c => playAudioChunk s c.streamId c.payload c.isVendor) st
     r.played = st.played ++ l ∧ r.pendingChunks = st.pendingChunks ∧
     r.audioContext = st.audioContext ∧
     r.isAudioContextReady = st.isAudioContextReady ∧
     r.clientChunks = st.clientChunks ∧ r.vendorChunks = st.vendorChunks ∧
     r.addChunkCalls = st.addChunkCalls)
  | [], st, h => by simp
  | c :: l, st, h => by
    simp only [List.foldl_cons]
    obtain ⟨h1, h2, h3, h4, h5, h6, h7⟩ :=
      playAudioChunk_running st c.streamId c.payload c.isVendor h
    obtain ⟨g1, g2, g3, g4, g5, g6, g7⟩ :=
      foldPlay_running l (playAudioChunk st c.streamId c.payload c.isVendor)
        (by rw [h3, h])
    refine ⟨?_, ?_, ?_, ?_, ?_, ?_, ?_⟩
    · rw [g1, h1]; simp
    · rw [g2, h2]
    · rw [g3, h3]
    · rw [g4, h4]
    · rw [g5, h5]
    · rw [g6, h6]
    · rw [g7, h7]

theorem playPendingChunks_running (st : AudioQueueState)
    (h : st.audioContext = some CtxState.running) :
    (playPendingChunks st).played = st.played ++ st.pendingChunks ∧
    (playPendingChunks st).pendingChunks = [] ∧
    (playPendingChunks st).audioContext = some CtxState.running ∧
    (playPendingChunks st).isAudioContextReady = true ∧
    (playPendingChunks st).clientChunks = st.clientChunks ∧
    (playPendingChunks st).vendorChunks = st.vendorChunks ∧
    (playPendingChunks st).addChunkCalls = st.addChunkCalls := by
  obtain ⟨g1, g2, g3, g4, g5, g6, g7⟩ :=
    foldPlay_running st.pendingChunks
      { st with isAudioContextReady := true, pendingChunks := [] } h
  simp only [playPendingChunks, if_pos h]
  exact ⟨g1, g2, by rw [g3]; exact h, g4, g5, g6, g7⟩

theorem playPendingChunks_not_running (st : AudioQueueState)
    (h : st.audioContext ≠ some CtxState.running) :
    playPendingChunks st = st := by
  simp only [playPendingChunks, if_neg h]

theorem playPendingChunks_fixpoint (st : AudioQueueState)
    (h1 : st.isAudioContextReady = true) (h2 : st.pendingChunks = []) :
    playPendingChunks st = st := by
  by_cases h : st.audioContext = some CtxState.running
  · simp only [playPendingChunks, if_pos h, h2]
    simp only [List.foldl_nil]
    cases st
    simp_all
  · exact playPendingChunks_not_running st h

theorem initializeAudio_ctx (fresh : CtxState) (st : AudioQueueState) :
    (initializeAudio fresh st).1.audioContext
      = if st.audioContext = none then some fresh else st.audioContext := by
  by_cases hA : st.isAudioContextReady = true ∧ st.audioContext = some CtxState.running
  · have hInit : initializeAudio fresh st = (playPendingChunks st, true) := by
      simp only [initializeAudio, if_pos hA]
    rw [hInit, if_neg (show ¬ st.audioContext = none by rw [hA.2]; simp)]
    exact ((playPendingChunks_running st hA.2).2.2.1).trans hA.2.symm
  · by_cases hN : st.audioContext = none
    · have hInit : initializeAudio fresh st
          = (playPendingChunks
              { st with audioContext := some fresh, isAudioContextReady := true }, true) := by
        simp only [initializeAudio, if_neg hA, if_pos hN]
      rw [hInit, if_pos hN]
      by_cases hF : fresh = CtxState.running
      · subst hF
        exact (playPendingChunks_running _ rfl).2.2.1
      · rw [playPendingChunks_not_running _ (fun hEq => hF (Option.some.inj hEq))]
    · have hInit : initializeAudio fresh st
          = (playPendingChunks { st with isAudioContextReady := true }, true) := by
        simp only [initializeAudio, if_neg hA, if_neg hN]
      rw [hInit, if_neg hN]
      by_cases hR : st.audioContext = some CtxState.running
      · exact ((playPendingChunks_running { st with isAudioContextReady := true } hR).2.2.1).trans
          hR.symm
      · rw [playPendingChunks_not_running { st with isAudioContextReady := true } hR]

theorem initializeAudio_proj (fresh : CtxState) (st : AudioQueueState) :
    (initializeAudio fresh st).1.clientChunks = st.clientChunks ∧
    (initializeAudio fresh st).1.vendorChunks = st.vendorChunks ∧
    (initializeAudio fresh st).1.addChunkCalls = st.addChunkCalls ∧
    (initializeAudio fresh st).1.isAudioContextReady = true ∧
    (initializeAudio fresh st).2 = true ∧
    (((initializeAudio fresh st).1.audioContext = some CtxState.running ∧
      (initializeAudio fresh st).1.played = st.played ++ st.pendingChunks ∧
      (initializeAudio fresh st).1.pendingChunks = []) ∨
     ((initializeAudio fresh st).1.audioContext ≠ some CtxState.running ∧
      (initializeAudio fresh st).1.played = st.played ∧
      (initializeAudio fresh st).1.pendingChunks = st.pendingChunks)) := by
  by_cases hA : st.isAudioContextReady = true ∧ st.audioContext = some CtxState.running
  · have hInit : initializeAudio fresh st = (playPendingChunks st, true) := by
      simp only [initializeAudio, if_pos hA]
    rw [hInit]
    obtain ⟨g1, g2, g3, g4, g5, g6, g7⟩ := playPendingChunks_running st hA.2
    exact ⟨g5, g6, g7, g4, rfl, Or.inl ⟨g3, g1, g2⟩⟩
  · by_cases hN : st.audioContext = none
    · have hInit : initializeAudio fresh st
          = (playPendingChunks
              { st with audioContext := some fresh, isAudioContextReady := true }, true) := by
        simp only [initializeAudio, if_neg hA, if_pos hN]
      rw [hInit]
      by_cases hF : fresh = CtxState.running
      · subst hF
        obtain ⟨g1, g2, g3, g4, g5, g6, g7⟩ := playPendingChunks_running
          { st with audioContext := some CtxState.running, isAudioContextReady := true } rfl
        exact ⟨g5, g6, g7, g4, rfl, Or.inl ⟨g3, g1, g2⟩⟩
      · rw [playPendingChunks_not_running _ (fun hEq => hF (Option.some.inj hEq))]
        exact ⟨rfl, rfl, rfl, rfl, rfl,
          Or.inr ⟨fun hEq => hF (Option.some.inj hEq), rfl, rfl⟩⟩
    · have hInit : initializeAudio fresh st
          = (playPendingChunks { st with isAudioContextReady := true }, true) := by
        simp only [initializeAudio, if_neg hA, if_neg hN]
      rw [hInit]
      by_cases hR : st.audioContext = some CtxState.running
      · obtain ⟨g1, g2, g3, g4, g5, g6, g7⟩ := playPendingChunks_running
          { st with isAudioContextReady := true } hR
        exact ⟨g5, g6, g7, g4, rfl, Or.inl ⟨g3, g1, g2⟩⟩
      · rw [playPendingChunks_not_running { st with isAudioContextReady := true } hR]
        exact ⟨rfl, rfl, rfl, rfl, rfl, Or.inr ⟨hR, rfl, rfl⟩⟩

theorem resumeComplete_none (st : AudioQueueState) (h : st.audioContext = none) :
    resumeComplete st = st := by
  simp only [resumeComplete, if_pos h]

theorem resumeComplete_some (st : AudioQueueState) (h : st.audioContext ≠ none) :
    (resumeComplete st).played = st.played ++ st.pendingChunks ∧
    (resumeComplete st).pendingChunks = [] ∧
    (resumeComplete st).audioContext = some CtxState.running ∧
    (resumeComplete st).isAudioContextReady = true ∧
    (resumeComplete st).clientChunks = st.clientChunks ∧
    (resumeComplete st).vendorChunks = st.vendorChunks ∧
    (resumeComplete st).addChunkCalls = st.addChunkCalls := by
  have hRes : resumeComplete st
      = playPendingChunks
          { st with audioContext := some CtxState.running, isAudioContextReady := true } := by
    simp only [resumeComplete, if_neg h]
  rw [hRes]
  exact playPendingChunks_running
    { st with audioContext := some CtxState.running, isAudioContextReady := true } rfl

theorem addChunkStore_proj (st : AudioQueueState) (sid p : String)
    (c : Option ℕ) (v : Bool) :
    (addChunkStore st sid p c v).played = st.played ∧
    (addChunkStore st sid p c v).pendingChunks = st.pendingChunks ∧
    (addChunkStore st sid p c v).audioContext = st.audioContext ∧
    (addChunkStore st sid p c v).isAudioContextReady = st.isAudioContextReady ∧
    (addChunkStore st sid p c v).addChunkCalls = st.addChunkCalls + 1 := by
  cases v <;> simp [addChunkStore]

theorem addChunkDispatch_order (st : AudioQueueState) (sid p : String)
    (v : Bool) (hready : st.isAudioContextReady = true)
    (hp : st.audioContext = some CtxState.running → st.pendingChunks = []) :
    (addChunkDispatch st sid p v).played ++ (addChunkDispatch st sid p v).pendingChunks
      = (st.played ++ st.pendingChunks) ++ [⟨sid, p, v⟩] ∧
    QueueInv (addChunkDispatch st sid p v) ∧
    (addChunkDispatch st sid p v).addChunkCalls = st.addChunkCalls := by
  by_cases hR : st.audioContext = some CtxState.running
  · have hc : st.isAudioContextReady = true ∧ st.audioContext = some CtxState.running :=
      ⟨hready, hR⟩
    simp only [addChunkDispatch, if_pos hc]
    obtain ⟨g1, g2, g3, g4, g5, g6, g7⟩ := playAudioChunk_running st sid p v hR
    have hpe := hp hR
    refine ⟨by rw [g1, g2, hpe]; simp, ?_, g7⟩
    intro _ _
    rw [g2, hpe]
  · have hcond : ¬ (st.isAudioContextReady = true ∧ st.audioContext = some CtxState.running) :=
      fun hc => hR hc.2
    simp only [addChunkDispatch, if_neg hcond]
    refine ⟨by simp, ?_, trivial⟩
    intro _ hx
    exact absurd hx hR

theorem addChunk_order (st : AudioQueueState) (sid p : String) (c : Option ℕ)
    (src : Option String) (fresh : CtxState) (hinv : QueueInv st) :
    (addChunk st sid p c src fresh).played ++ (addChunk st sid p c src fresh).pendingChunks
      = (st.played ++ st.pendingChunks) ++ [⟨sid, p, src == some "vendor"⟩] ∧
    QueueInv (addChunk st sid p c src fresh) ∧
    (addChunk st sid p c src fresh).addChunkCalls = st.addChunkCalls + 1 := by
  obtain ⟨s1, s2, s3, s4, s5⟩ := addChunkStore_proj st sid p c (src == some "vendor")
  simp only [addChunk]
  by_cases hcond : (addChunkStore st sid p c (src == some "vendor")).isAudioContextReady = false
      ∨ (addChunkStore st sid p c (src == some "vendor")).audioContext ≠ some CtxState.running
  · simp only [if_pos hcond]
    obtain ⟨i1, i2, i3, i4, _, idisj⟩ :=
      initializeAudio_proj fresh (addChunkStore st sid p c (src == some "vendor"))
    rcases idisj with ⟨j1, j2, j3⟩ | ⟨j1, j2, j3⟩
    · obtain ⟨d1, d2, d3⟩ := addChunkDispatch_order _ sid p (src == some "vendor") i4
        (fun _ => j3)
      refine ⟨?_, d2, ?_⟩
      · rw [d1, j2, j3, s1, s2]
        simp
      · rw [d3, i3, s5]
    · obtain ⟨d1, d2, d3⟩ := addChunkDispatch_order _ sid p (src == some "vendor") i4
        (fun hx => absurd hx j1)
      refine ⟨?_, d2, ?_⟩
      · rw [d1, j2, j3, s1, s2]
      · rw [d3, i3, s5]
  · simp only [if_neg hcond]
    push_neg at hcond
    obtain ⟨hb, hctx⟩ := hcond
    have hready : (addChunkStore st sid p c (src == some "vendor")).isAudioContextReady = true := by
      revert hb
      cases (addChunkStore st sid p c (src == some "vendor")).isAudioContextReady <;> simp
    have hpe : (addChunkStore st sid p c (src == some "vendor")).pendingChunks = [] := by
      rw [s2]
      exact hinv (by rw [← s4, hready]) (by rw [← s3, hctx])
    obtain ⟨d1, d2, d3⟩ := addChunkDispatch_order _ sid p (src == some "vendor") hready
      (fun _ => hpe)
    refine ⟨?_, d2, ?_⟩
    · rw [d1, s1, s2]
    · rw [d3, s5]

theorem addChunk_notReady (st : AudioQueueState) (sid p : String) (c : Option ℕ)
    (src : Option String)
    (h : st.audioContext = none ∨ st.audioContext = some CtxState.suspended) :
    (addChunk st sid p c src CtxState.suspended).pendingChunks
      = st.pendingChunks ++ [⟨sid, p, src == some "vendor"⟩] ∧
    (addChunk st sid p c src CtxState.suspended).played = st.played ∧
    (addChunk st sid p c src CtxState.suspended).audioContext = some CtxState.suspended ∧
    (addChunk st sid p c src CtxState.suspended).isAudioContextReady = true := by
  obtain ⟨s1, s2, s3, s4, s5⟩ := addChunkStore_proj st sid p c (src == some "vendor")
  have hctx2 : (addChunkStore st sid p c (src == some "vendor")).audioContext
      ≠ some CtxState.running := by
    rw [s3]
    rcases h with h | h <;> rw [h] <;> simp
  have hcond : (addChunkStore st sid p c (src == some "vendor")).isAudioContextReady = false
      ∨ (addChunkStore st sid p c (src == some "vendor")).audioContext
          ≠ some CtxState.running := Or.inr hctx2
  have hctx3 : (initializeAudio CtxState.suspended
      (addChunkStore st sid p c (src == some "vendor"))).1.audioContext
        = some CtxState.suspended := by
    rw [initializeAudio_ctx, s3]
    rcases h with h | h <;> rw [h] <;> simp
  obtain ⟨i1, i2, i3, i4, i5, idisj⟩ := initializeAudio_proj CtxState.suspended
    (addChunkStore st sid p c (src == some "vendor"))
  have hnr : (initializeAudio CtxState.suspended
      (addChunkStore st sid p c (src == some "vendor"))).1.audioContext
        ≠ some CtxState.running := by
    rw [hctx3]
    simp
  obtain ⟨j2, j3⟩ : (initializeAudio CtxState.suspended
        (addChunkStore st sid p c (src == some "vendor"))).1.played
          = (addChunkStore st sid p c (src == some "vendor")).played ∧
      (initializeAudio CtxState.suspended
        (addChunkStore st sid p c (src == some "vendor"))).1.pendingChunks
          = (addChunkStore st sid p c (src == some "vendor")).pendingChunks := by
    rcases idisj with ⟨j1, _, _⟩ | ⟨_, j2, j3⟩
    · exact absurd j1 hnr
    · exact ⟨j2, j3⟩
  have hcond3 : ¬ ((initializeAudio CtxState.suspended
      (addChunkStore st sid p c (src == some "vendor"))).1.isAudioContextReady = true ∧
      (initializeAudio CtxState.suspended
        (addChunkStore st sid p c (src == some "vendor"))).1.audioContext
          = some CtxState.running) := fun hx => hnr hx.2
  simp only [addChunk]
  rw [if_pos hcond]
  have hDisp : addChunkDispatch (initializeAudio CtxState.suspended
      (addChunkStore st sid p c (src == some "vendor"))).1 sid p (src == some "vendor")
      = { (initializeAudio CtxState.suspended
            (addChunkStore st sid p c (src == some "vendor"))).1 with
          pendingChunks := (initializeAudio CtxState.suspended
            (addChunkStore st sid p c (src == some "vendor"))).1.pendingChunks
              ++ [⟨sid, p, src == some "vendor"⟩] } := by
    simp only [addChunkDispatch, if_neg hcond3]
  rw [hDisp]
  refine ⟨?_, ?_, ?_, ?_⟩
  · show (initializeAudio CtxState.suspended
        (addChunkStore st sid p c (src == some "vendor"))).1.pendingChunks
          ++ [⟨sid, p, src == some "vendor"⟩]
        = st.pendingChunks ++ [⟨sid, p, src == some "vendor"⟩]
    rw [j3, s2]
  · show (initializeAudio CtxState.suspended
        (addChunkStore st sid p c (src == some "vendor"))).1.played = st.played
    rw [j2, s1]
  · exact hctx3
  · exact i4

theorem stepQueue_order (st : AudioQueueState) (op : QueueOp) (hinv : QueueInv st) :
    (stepQueue st op).played ++ (stepQueue st op).pendingChunks
      = (st.played ++ st.pendingChunks) ++ arrivals [op] ∧
    QueueInv (stepQueue st op) := by
  cases op with
  | add sid p c src fresh =>
    obtain ⟨h1, h2, _⟩ := addChunk_order st sid p c src fresh hinv
    exact ⟨h1, h2⟩
  | initAudio fresh =>
    obtain ⟨_, _, _, i4, _, idisj⟩ := initializeAudio_proj fresh st
    rcases idisj with ⟨j1, j2, j3⟩ | ⟨j1, j2, j3⟩
    · refine ⟨?_, ?_⟩
      · show (initializeAudio fresh st).1.played ++ (initializeAudio fresh st).1.pendingChunks
            = (st.played ++ st.pendingChunks) ++ arrivals [QueueOp.initAudio fresh]
        rw [j2, j3]
        simp [arrivals]
      · intro _ _
        exact j3
    · refine ⟨?_, ?_⟩
      · show (initializeAudio fresh st).1.played ++ (initializeAudio fresh st).1.pendingChunks
            = (st.played ++ st.pendingChunks) ++ arrivals [QueueOp.initAudio fresh]
        rw [j2, j3]
        simp [arrivals]
      · intro _ hx
        exact absurd hx j1
  | resumeOk =>
    by_cases h : st.audioContext = none
    · refine ⟨?_, ?_⟩
      · show (resumeComplete st).played ++ (resumeComplete st).pendingChunks
            = (st.played ++ st.pendingChunks) ++ arrivals [QueueOp.resumeOk]
        rw [resumeComplete_none st h]
        simp [arrivals]
      · show QueueInv (resumeComplete st)
        rw [resumeComplete_none st h]
        exact hinv
    · obtain ⟨r1, r2, _, _, _, _, _⟩ := resumeComplete_some st h
      refine ⟨?_, ?_⟩
      · show (resumeComplete st).played ++ (resumeComplete st).pendingChunks
            = (st.played ++ st.pendingChunks) ++ arrivals [QueueOp.resumeOk]
        rw [r1, r2]
        simp [arrivals]
      · intro _ _
        exact r2

theorem runQueue_order : ∀ (ops : List QueueOp) (st : AudioQueueState), QueueInv st →
    ((runQueue st ops).played ++ (runQueue st ops).pendingChunks
      = (st.played ++ st.pendingChunks) ++ arrivals ops ∧
    QueueInv (runQueue st ops))
  | [], st, h => ⟨by simp [runQueue, arrivals], h⟩
  | op :: ops, st, h => by
    obtain ⟨h1, h2⟩ := stepQueue_order st op h
    obtain ⟨g1, g2⟩ := runQueue_order ops (stepQueue st op) h2
    have hrun : runQueue st (op :: ops) = runQueue (stepQueue st op) ops := rfl
    rw [hrun]
    refine ⟨?_, g2⟩
    rw [g1, h1]
    cases op <;> simp [arrivals]

/-! ### Session lemmas: the playback gate -/

theorem chunkCount_parts_zero (st : AudioQueueState) (h : chunkCount st = 0) :
    st.pendingChunks.length = 0 ∧ storedCount st.clientChunks = 0 ∧
    storedCount st.vendorChunks = 0 := by
  unfold chunkCount at h
  omega

theorem initializeAudio_chunkCount_zero (fresh : CtxState) (st : AudioQueueState)
    (h : chunkCount st = 0) : chunkCount (initializeAudio fresh st).1 = 0 := by
  obtain ⟨i1, i2, _, _, _, idisj⟩ := initializeAudio_proj fresh st
  obtain ⟨hp, hc, hv⟩ := chunkCount_parts_zero st h
  unfold chunkCount
  rw [i1, i2]
  rcases idisj with ⟨_, _, j3⟩ | ⟨_, _, j3⟩ <;> rw [j3]
  · simp only [List.length_nil]
    omega
  · omega

theorem handleMessage_media_proj (fresh : CtxState) (st : SessionState)
    (sid p : String) (c : Option ℕ) (src : Option String) :
    (handleMessage fresh st (InboundMsg.media sid p c src)).canPlayAudio
      = st.canPlayAudio ∧
    (st.canPlayAudio = false →
      (handleMessage fresh st (InboundMsg.media sid p c src)).queue = st.queue ∨
      (handleMessage fresh st (InboundMsg.media sid p c src)).queue
        = (initializeAudio fresh st.queue).1) := by
  by_cases hq : st.queue.isAudioContextReady = false
      ∧ st.queue.audioContext ≠ some CtxState.running
  · by_cases hcp : st.canPlayAudio = true
    · have hM : handleMessage fresh st (InboundMsg.media sid p c src)
          = { st with
                mediaMessages := st.mediaMessages + 1,
                queue := addChunk (initializeAudio fresh st.queue).1 sid p c src fresh } := by
        simp only [handleMessage, if_pos hq, if_pos hcp]
      rw [hM]
      exact ⟨rfl, fun hcf => by rw [hcf] at hcp; exact absurd hcp (by simp)⟩
    · have hM : handleMessage fresh st (InboundMsg.media sid p c src)
          = { st with
                mediaMessages := st.mediaMessages + 1,
                queue := (initializeAudio fresh st.queue).1 } := by
        simp only [handleMessage, if_pos hq, if_neg hcp]
      rw [hM]
      exact ⟨rfl, fun _ => Or.inr rfl⟩
  · by_cases hcp : st.canPlayAudio = true
    · have hM : handleMessage fresh st (InboundMsg.media sid p c src)
          = { st with
                mediaMessages := st.mediaMessages + 1,
                queue := addChunk st.queue sid p c src fresh } := by
        simp only [handleMessage, if_neg hq, if_pos hcp]
      rw [hM]
      exact ⟨rfl, fun hcf => by rw [hcf] at hcp; exact absurd hcp (by simp)⟩
    · have hM : handleMessage fresh st (InboundMsg.media sid p c src)
          = { st with
                mediaMessages := st.mediaMessages + 1,
                queue := st.queue } := by
        simp only [handleMessage, if_neg hq, if_neg hcp]
      rw [hM]
      exact ⟨rfl, fun _ => Or.inl rfl⟩

theorem handleMessage_gateInv (fresh : CtxState) (st : SessionState) (m : InboundMsg)
    (h : GateInv st) : GateInv (handleMessage fresh st m) := by
  cases m with
  | media sid p c src =>
    obtain ⟨hc1, hc2⟩ := handleMessage_media_proj fresh st sid p c src
    intro hgate
    rw [hc1] at hgate
    rcases hc2 hgate with hq | hq
    · rw [hq]
      exact h hgate
    · rw [hq]
      exact initializeAudio_chunkCount_zero fresh st.queue (h hgate)
  | start cid ctid name =>
    intro hgate
    have hM : handleMessage fresh st (InboundMsg.start cid ctid name)
        = { st with
              activeCall := { isActive := true, callId := some cid,
                              contactId := some ctid, contactName := name },
              queue := (initializeAudio fresh st.queue).1,
              canPlayAudio := true } := by
      simp only [handleMessage]
    rw [hM] at hgate
    simp at hgate
  | stop cid reason =>
    intro _
    have hM : handleMessage fresh st (InboundMsg.stop cid reason)
        = { st with
              activeCall := { isActive := false, callId := none,
                              contactId := none, contactName := none },
              queue := st.queue.clear,
              canPlayAudio := false } := by
      simp only [handleMessage]
    rw [hM]
    rfl
  | comm => exact h
  | unknown => exact h

theorem foldSession_gateInv : ∀ (evs : List (CtxState × InboundMsg)) (st : SessionState),
    GateInv st → GateInv (evs.foldl (fun s e => handleMessage e.1 s e.2) st)
  | [], _, h => h
  | e :: evs, st, h =>
    foldSession_gateInv evs _ (handleMessage_gateInv e.1 st e.2 h)

theorem runSession_gateInv (evs : List (CtxState × InboundMsg)) :
    GateInv (runSession evs) :=
  foldSession_gateInv evs SessionState.init (fun _ => rfl)

/-! ### Transport lemmas -/

theorem onclose_abnormal (code : ℕ) (st : TransportState) (hc : code ≠ 1000)
    (ha : st.reconnectAttempts < maxReconnectAttempts) :
    (onclose code st).reconnectAttempts = st.reconnectAttempts + 1 ∧
    (onclose code st).reconnectTimeout = some (backoffTime (st.reconnectAttempts + 1)) ∧
    (onclose code st).isReconnecting = true := by
  have hM : onclose code st
      = { st with
            status := ConnStatus.disconnected, socket := none,
            connectionInProgress := false, heartbeatActive := false,
            reconnectAttempts := st.reconnectAttempts + 1,
            isReconnecting := true, hasConnected := false,
            reconnectTimeout := some (backoffTime (st.reconnectAttempts + 1)) } := by
    simp only [onclose, if_pos (show code ≠ 1000 ∧
      st.reconnectAttempts < maxReconnectAttempts from ⟨hc, ha⟩)]
  rw [hM]
  exact ⟨rfl, rfl, rfl⟩

theorem onclose_no_reconnect (code : ℕ) (st : TransportState)
    (h : ¬ (code ≠ 1000 ∧ st.reconnectAttempts < maxReconnectAttempts)) :
    (onclose code st).reconnectTimeout = st.reconnectTimeout ∧
    (onclose code st).isReconnecting = false := by
  have hM : onclose code st
      = { st with
            status := ConnStatus.disconnected, socket := none,
            connectionInProgress := false, heartbeatActive := false,
            isReconnecting := false, hasConnected := false } := by
    simp only [onclose, if_neg h]
  rw [hM]
  exact ⟨rfl, rfl⟩

theorem onclose_iterate (code : ℕ) (hc : code ≠ 1000) :
    ∀ (n : ℕ) (st : TransportState), st.reconnectAttempts = 0 →
      n ≤ maxReconnectAttempts →
      ((onclose code)^[n] st).reconnectAttempts = n ∧
      (1 ≤ n → ((onclose code)^[n] st).reconnectTimeout = some (backoffTime n)) := by
  intro n
  induction n with
  | zero =>
    intro st h0 _
    refine ⟨by simpa using h0, ?_⟩
    intro h1
    exact absurd h1 (by omega)
  | succ n ih =>
    intro st h0 hn
    obtain ⟨ga, _⟩ := ih st h0 (by omega)
    have hlt : ((onclose code)^[n] st).reconnectAttempts < maxReconnectAttempts := by
      rw [ga]
      have : n + 1 ≤ 5 := hn
      omega
    obtain ⟨b1, b2, _⟩ := onclose_abnormal code _ hc hlt
    rw [Function.iterate_succ_apply']
    refine ⟨by rw [b1, ga], fun _ => by rw [b2, ga]⟩

theorem connect_connecting_noop (now : ℕ) (st : TransportState)
    (h : st.socket = some ReadyState.CONNECTING) : connect now st = st := by
  have hno : ¬ st.socket = some ReadyState.OPEN := by rw [h]; simp
  simp only [connect, if_neg hno, if_pos h]

/-! ## Claim theorems -/

/-- Claim C1: the spec states that `decode(encode(s))` approximates `s`
within the mu-law quantization error bound (about 3% relative error at full
scale).  The code violates this: the encoder writes `0x80` for negative
samples while the decode table of the same file places negative values at
indices 0-127, so the round trip negates the signal.  At the failing input
`s = 1.0` the encoder returns byte `0x00` and the decoder maps it to
`-32124/32768`, about `-0.98`, an error far beyond 3%; `s = 0.0` decodes to
the same full-scale negative value. -/
theorem mulaw_roundtrip_negates_full_scale :
    mulawDecode (linearToMulaw 1) = -(32124 / 32768 : ℚ) ∧
    mulawDecode (linearToMulaw 0) = -(32124 / 32768 : ℚ) ∧
    3 / 100 < |mulawDecode (linearToMulaw 1) - 1| := by
  rw [linearToMulaw_one, linearToMulaw_zero]
  have h0 : MULAW_DECODE_TABLE.getD 0 0 = -32124 := rfl
  have hd : mulawDecode 0 = -(32124 / 32768 : ℚ) := by
    rw [mulawDecode, h0]
    norm_num
  refine ⟨hd, hd, ?_⟩
  rw [hd]
  have habs : |(-(32124 / 32768 : ℚ)) - 1| = 32124 / 32768 + 1 := by
    rw [abs_of_nonpos (by norm_num)]
    ring
  rw [habs]
  norm_num

/-- Claim C2: the spec states that the encoder stores the sign flag in bit
7 and the complement of the magnitude in the low 7 bits, with
`encode(1.0)` matching the canonical table entry for full-scale positive.
The code diverges: `encode(1.0) = 0x00`, which is the canonical full-scale
NEGATIVE entry (`-32124`), while the full-scale positive entry sits at
index `0x80 = 128` — the byte the encoder produces for `-1.0`; moreover the
8-bit complement `255 - value` spills into bit 7 for quiet samples, e.g.
`encode(1/85) = 0xBF = 191` has bit 7 set although the sample is
positive. -/
theorem linearToMulaw_sign_convention_mismatch :
    linearToMulaw 1 = 0 ∧
    linearToMulaw (-1) = 128 ∧
    MULAW_DECODE_TABLE.getD 0 0 = -32124 ∧
    MULAW_DECODE_TABLE.getD 128 0 = 32124 ∧
    linearToMulaw (1 / 85) = 191 ∧
    Nat.testBit 191 7 = true :=
  ⟨linearToMulaw_one, linearToMulaw_neg_one, by decide, by decide,
    linearToMulaw_one_div_85, by decide⟩

/-- Claim C3: whenever the playback gate is false, an inbound media event
is never forwarded to the playback queue — `addChunk` is not invoked (the
ghost call counter is unchanged) and the chunk count of the queue stays zero —
for every reachable state of the dispatcher. -/
theorem gate_false_media_not_queued (evs : List (CtxState × InboundMsg))
    (fresh : CtxState) (sid p : String) (c : Option ℕ) (src : Option String)
    (h : (runSession evs).canPlayAudio = false) :
    chunkCount (runSession evs).queue = 0 ∧
    (handleMessage fresh (runSession evs) (InboundMsg.media sid p c src)).queue.addChunkCalls
      = (runSession evs).queue.addChunkCalls ∧
    chunkCount (handleMessage fresh (runSession evs) (InboundMsg.media sid p c src)).queue
      = 0 := by
  have h0 := runSession_gateInv evs h
  obtain ⟨_, hc2⟩ := handleMessage_media_proj fresh (runSession evs) sid p c src
  refine ⟨h0, ?_, ?_⟩
  · rcases hc2 h with hq | hq
    · rw [hq]
    · rw [hq]
      exact (initializeAudio_proj fresh (runSession evs).queue).2.2.1
  · rcases hc2 h with hq | hq
    · rw [hq]
      exact h0
    · rw [hq]
      exact initializeAudio_chunkCount_zero fresh _ h0

theorem gate_false_media_not_queued_witness :
    (runSession scenarioC).canPlayAudio = false ∧
    chunkCount (runSession scenarioC).queue = 0 ∧
    (handleMessage CtxState.running (runSession scenarioC)
        (InboundMsg.media "s1" "d" none none)).queue.addChunkCalls
      = (runSession scenarioC).queue.addChunkCalls ∧
    chunkCount (handleMessage CtxState.running (runSession scenarioC)
        (InboundMsg.media "s1" "d" none none)).queue = 0 :=
  ⟨by decide,
    gate_false_media_not_queued scenarioC CtxState.running "s1" "d" none none (by decide)⟩

/-- Claim C4: after the n-th consecutive abnormal closure (1 ≤ n ≤ 5,
starting from a zero attempt counter) the scheduled reconnect delay equals
`min(1000 * 2^(n-1), 30000)`; the earlier delays follow the same formula
and are strictly smaller; and a successful open resets the attempt counter
to zero. -/
theorem reconnect_backoff_schedule (st : TransportState) (code n : ℕ)
    (h0 : st.reconnectAttempts = 0) (hc : code ≠ 1000)
    (h1 : 1 ≤ n) (h5 : n ≤ maxReconnectAttempts) :
    ((onclose code)^[n] st).reconnectTimeout
      = some (min (1000 * 2 ^ (n - 1)) 30000) ∧
    (∀ m, 1 ≤ m → m < n →
      ((onclose code)^[m] st).reconnectTimeout = some (backoffTime m) ∧
      backoffTime m < backoffTime n) ∧
    (∀ st2 : TransportState, (onopen st2).reconnectAttempts = 0) := by
  obtain ⟨_, gt⟩ := onclose_iterate code hc n st h0 h5
  refine ⟨by rw [gt h1]; rfl, ?_, fun st2 => rfl⟩
  intro m hm1 hmn
  obtain ⟨_, gtm⟩ := onclose_iterate code hc m st h0 (by omega)
  refine ⟨gtm hm1, ?_⟩
  have h5n : n ≤ 5 := h5
  unfold backoffTime
  interval_cases n <;> interval_cases m <;> decide

theorem reconnect_backoff_schedule_witness :
    ((onclose 1006)^[2] TransportState.init).reconnectTimeout
      = some (min (1000 * 2 ^ (2 - 1)) 30000) ∧
    ((onclose 1006)^[1] TransportState.init).reconnectTimeout
      = some (backoffTime 1) ∧
    backoffTime 1 < backoffTime 2 := by
  obtain ⟨w1, w2, _⟩ := reconnect_backoff_schedule TransportState.init 1006 2 rfl
    (by decide) (by decide) (by decide)
  obtain ⟨w21, w22⟩ := w2 1 (by decide) (by decide)
  exact ⟨w1, w21, w22⟩

/-- Claim C5: a `connect()` call on a clean disconnected state creates
exactly one socket, and a second `connect()` while the first attempt is
still in flight (the socket is CONNECTING) is a no-op: the state — in
particular the ghost count of `new WebSocket` constructions — is
unchanged. -/
theorem connect_reentrant_noop (st : TransportState) (now1 now2 : ℕ)
    (hsock : st.socket = none) (hrec : st.isReconnecting = false)
    (hcool : CONNECTION_COOLDOWN_MS ≤ now1 - st.connectionAttemptTimestamp)
    (hprog : st.connectionInProgress = false) :
    (connect now1 st).socketsCreated = st.socketsCreated + 1 ∧
    (connect now1 st).socket = some ReadyState.CONNECTING ∧
    connect now2 (connect now1 st) = connect now1 st := by
  have h1 : ¬ st.socket = some ReadyState.OPEN := by rw [hsock]; simp
  have h2 : ¬ st.socket = some ReadyState.CONNECTING := by rw [hsock]; simp
  have h3 : ¬ st.isReconnecting = true := by rw [hrec]; simp
  have h4 : ¬ (now1 - st.connectionAttemptTimestamp < CONNECTION_COOLDOWN_MS) := by
    omega
  have h5 : ¬ st.connectionInProgress = true := by rw [hprog]; simp
  have hC : connect now1 st
      = { st with
            connectionInProgress := true,
            connectionAttemptTimestamp := now1,
            reconnectTimeout := none,
            reconnectAttempts := 0,
            status := ConnStatus.connecting,
            socket := some ReadyState.CONNECTING,
            socketsCreated := st.socketsCreated + 1 } := by
    simp only [connect, if_neg h1, if_neg h2, if_neg h3, if_neg h4, if_neg h5]
  rw [hC]
  exact ⟨rfl, rfl, connect_connecting_noop now2 _ rfl⟩

theorem connect_reentrant_noop_witness :
    (connect 5000 TransportState.init).socketsCreated
      = TransportState.init.socketsCreated + 1 ∧
    connect 5001 (connect 5000 TransportState.init) = connect 5000 TransportState.init := by
  obtain ⟨w1, _, w3⟩ := connect_reentrant_noop TransportState.init 5000 5001 rfl rfl
    (by decide) rfl
  exact ⟨w1, w3⟩

/-- Claim C6: a closure with the normal code 1000, or one arriving when
the attempt counter has reached the ceiling, schedules no reconnect (the
timeout field is untouched and the reconnecting flag is cleared); an
abnormal closure below the ceiling schedules a reconnect after the backoff
delay. -/
theorem onclose_reconnect_policy (st : TransportState) (code : ℕ) :
    ((code = 1000 ∨ maxReconnectAttempts ≤ st.reconnectAttempts) →
      (onclose code st).reconnectTimeout = st.reconnectTimeout ∧
      (onclose code st).isReconnecting = false) ∧
    (code ≠ 1000 → st.reconnectAttempts < maxReconnectAttempts →
      (onclose code st).reconnectTimeout
        = some (backoffTime (st.reconnectAttempts + 1)) ∧
      (onclose code st).isReconnecting = true) := by
  constructor
  · intro h
    refine onclose_no_reconnect code st ?_
    rcases h with h | h
    · exact fun hx => hx.1 h
    · exact fun hx => absurd hx.2 (by omega)
  · intro hc ha
    obtain ⟨_, b2, b3⟩ := onclose_abnormal code st hc ha
    exact ⟨b2, b3⟩

theorem onclose_reconnect_policy_witness :
    (onclose 1000 TransportState.init).reconnectTimeout
      = TransportState.init.reconnectTimeout ∧
    (onclose 1006 TransportState.init).reconnectTimeout = some (backoffTime 1) := by
  refine ⟨((onclose_reconnect_policy TransportState.init 1000).1 (Or.inl rfl)).1, ?_⟩
  exact ((onclose_reconnect_policy TransportState.init 1006).2 (by decide) (by decide)).1

/-- Claim C7: with the output device ready and running, `initializeAudio`
drains the pending FIFO exactly once — every pending chunk moves to the
played list — and a repeated call finds the FIFO empty and is a complete
no-op (it returns the very same state and `true`). -/
theorem initializeAudio_no_double_drain (st : AudioQueueState) (fresh : CtxState)
    (h1 : st.isAudioContextReady = true) (h2 : st.audioContext = some CtxState.running) :
    (initializeAudio fresh st).1.played = st.played ++ st.pendingChunks ∧
    (initializeAudio fresh st).1.pendingChunks = [] ∧
    initializeAudio fresh (initializeAudio fresh st).1
      = ((initializeAudio fresh st).1, true) := by
  have hc : st.isAudioContextReady = true ∧ st.audioContext = some CtxState.running :=
    ⟨h1, h2⟩
  have hInit : initializeAudio fresh st = (playPendingChunks st, true) := by
    simp only [initializeAudio, if_pos hc]
  obtain ⟨g1, g2, g3, g4, _, _, _⟩ := playPendingChunks_running st h2
  have hc2 : (playPendingChunks st).isAudioContextReady = true ∧
      (playPendingChunks st).audioContext = some CtxState.running := ⟨g4, g3⟩
  have hInit2 : initializeAudio fresh (playPendingChunks st)
      = (playPendingChunks (playPendingChunks st), true) := by
    simp only [initializeAudio, if_pos hc2]
  rw [hInit]
  refine ⟨g1, g2, ?_⟩
  show initializeAudio fresh (playPendingChunks st) = (playPendingChunks st, true)
  rw [hInit2, playPendingChunks_fixpoint (playPendingChunks st) g4 g2]

theorem initializeAudio_no_double_drain_witness :
    (initializeAudio CtxState.running demoQueueState).1.played
      = demoQueueState.played ++ demoQueueState.pendingChunks ∧
    (initializeAudio CtxState.running demoQueueState).1.pendingChunks = [] ∧
    initializeAudio CtxState.running (initializeAudio CtxState.running demoQueueState).1
      = ((initializeAudio CtxState.running demoQueueState).1, true) :=
  initializeAudio_no_double_drain demoQueueState CtxState.running rfl rfl

/-- Claim C8: chunks c1, c2, c3 added for the same stream and track while
the output device is not ready are appended to the pending FIFO in arrival
order, and once the device becomes ready (the resume completes) they are
played in exactly that order, each exactly once — regardless of the chunk
numbers supplied. -/
theorem addChunk_pending_order_preserved (st : AudioQueueState) (sid p1 p2 p3 : String)
    (k1 k2 k3 : Option ℕ) (src : Option String)
    (h : st.audioContext = none ∨ st.audioContext = some CtxState.suspended) :
    (addChunk (addChunk (addChunk st sid p1 k1 src CtxState.suspended)
        sid p2 k2 src CtxState.suspended) sid p3 k3 src CtxState.suspended).pendingChunks
      = st.pendingChunks ++ [⟨sid, p1, src == some "vendor"⟩,
          ⟨sid, p2, src == some "vendor"⟩, ⟨sid, p3, src == some "vendor"⟩] ∧
    (resumeComplete (addChunk (addChunk (addChunk st sid p1 k1 src CtxState.suspended)
        sid p2 k2 src CtxState.suspended) sid p3 k3 src CtxState.suspended)).played
      = st.played ++ st.pendingChunks ++ [⟨sid, p1, src == some "vendor"⟩,
          ⟨sid, p2, src == some "vendor"⟩, ⟨sid, p3, src == some "vendor"⟩] ∧
    (resumeComplete (addChunk (addChunk (addChunk st sid p1 k1 src CtxState.suspended)
        sid p2 k2 src CtxState.suspended) sid p3 k3 src CtxState.suspended)).pendingChunks
      = [] := by
  obtain ⟨a1p, a1pl, a1c, _⟩ := addChunk_notReady st sid p1 k1 src h
  obtain ⟨a2p, a2pl, a2c, _⟩ := addChunk_notReady _ sid p2 k2 src (Or.inr a1c)
  obtain ⟨a3p, a3pl, a3c, _⟩ := addChunk_notReady _ sid p3 k3 src (Or.inr a2c)
  have hpend : (addChunk (addChunk (addChunk st sid p1 k1 src CtxState.suspended)
      sid p2 k2 src CtxState.suspended) sid p3 k3 src CtxState.suspended).pendingChunks
      = st.pendingChunks ++ [⟨sid, p1, src == some "vendor"⟩,
          ⟨sid, p2, src == some "vendor"⟩, ⟨sid, p3, src == some "vendor"⟩] := by
    rw [a3p, a2p, a1p]
    simp
  have hne : (addChunk (addChunk (addChunk st sid p1 k1 src CtxState.suspended)
      sid p2 k2 src CtxState.suspended) sid p3 k3 src CtxState.suspended).audioContext
      ≠ none := by
    rw [a3c]
    simp
  obtain ⟨r1, r2, _, _, _, _, _⟩ := resumeComplete_some _ hne
  refine ⟨hpend, ?_, r2⟩
  rw [r1, a3pl, a2pl, a1pl, hpend]
  simp

theorem addChunk_pending_order_preserved_witness :
    (resumeComplete (addChunk (addChunk (addChunk AudioQueueState.init "s1" "a" none none
        CtxState.suspended) "s1" "b" none none CtxState.suspended) "s1" "c" none none
        CtxState.suspended)).played
      = AudioQueueState.init.played ++ AudioQueueState.init.pendingChunks
          ++ [⟨"s1", "a", false⟩, ⟨"s1", "b", false⟩, ⟨"s1", "c", false⟩] :=
  (addChunk_pending_order_preserved AudioQueueState.init "s1" "a" "b" "c" none none none
      none (Or.inl rfl)).2.1

/-- Claim C9 counterexample: `addChunk` does use the supplied chunk number.
With the device running, after arrivals "a", "b" (no chunk number) and "c"
with chunk number 0, the stored buffer for the stream is `["c", "b"]` — the
chunk-number write overwrote position 0 — which differs from the arrival
order `["a", "b", "c"]`; the played sequence, however, is the arrival
order. -/
theorem addChunk_chunk_index_overwrites :
    mapGetD (addChunk (addChunk (addChunk
        { AudioQueueState.init with
            audioContext := some CtxState.running,
            isAudioContextReady := true }
        "s1" "a" none none CtxState.running)
        "s1" "b" none none CtxState.running)
        "s1" "c" (some 0) none CtxState.running).clientChunks "s1" = ["c", "b"] ∧
    mapGetD (addChunk (addChunk (addChunk
        { AudioQueueState.init with
            audioContext := some CtxState.running,
            isAudioContextReady := true }
        "s1" "a" none none CtxState.running)
        "s1" "b" none none CtxState.running)
        "s1" "c" (some 0) none CtxState.running).clientChunks "s1" ≠ ["a", "b", "c"] ∧
    (addChunk (addChunk (addChunk
        { AudioQueueState.init with
            audioContext := some CtxState.running,
            isAudioContextReady := true }
        "s1" "a" none none CtxState.running)
        "s1" "b" none none CtxState.running)
        "s1" "c" (some 0) none CtxState.running).played
      = [⟨"s1", "a", false⟩, ⟨"s1", "b", false⟩, ⟨"s1", "c", false⟩] := by
  decide

/-- Claim C9 (amended): playback never consults the chunk number — over any
trace of `addChunk` calls (with arbitrary chunk numbers), device
initializations and resume completions, the chunks played followed by the
chunks still pending are exactly the `addChunk` arrivals in call order; the
stored per-stream buffer, however, is NOT kept in arrival order when a
chunk number below the stored length is supplied (it overwrites that
position, see the counterexample). -/
theorem played_order_is_arrival_order (ops : List QueueOp) :
    (runQueue AudioQueueState.init ops).played
        ++ (runQueue AudioQueueState.init ops).pendingChunks = arrivals ops := by
  have h := runQueue_order ops AudioQueueState.init (fun _ _ => rfl)
  rw [h.1]
  simp [AudioQueueState.init]

/-- Claim C10: `sendMark` emits a frame only when the socket is OPEN and a
call id is set, the `streamSid` of the emitted frame is the active call id, and
with an OPEN socket but no active call it returns without sending. -/
theorem sendMark_gated (socket : Option ReadyState) (ac : ActiveCall) (name : String) :
    (∀ m : MarkMessage, sendMark socket ac name = some m →
      socket = some ReadyState.OPEN ∧ ac.callId = some m.streamSid) ∧
    (socket = some ReadyState.OPEN → ac.callId = none →
      sendMark socket ac name = none) := by
  constructor
  · intro m hm
    by_cases hcond : socket ≠ some ReadyState.OPEN ∨ jsFalsy ac.callId = true
    · rw [sendMark, if_pos hcond] at hm
      exact absurd hm (by simp)
    · push_neg at hcond
      obtain ⟨hop, hfal⟩ := hcond
      rw [sendMark, if_neg (by push_neg; exact ⟨hop, hfal⟩)] at hm
      have hm2 := Option.some.inj hm
      refine ⟨hop, ?_⟩
      cases hcid : ac.callId with
      | none =>
        exact absurd (show jsFalsy ac.callId = true by rw [hcid]; rfl) hfal
      | some s =>
        rw [← hm2, hcid]
        rfl
  · intro hop hnone
    rw [sendMark, if_pos (Or.inr (show jsFalsy ac.callId = true by rw [hnone]; rfl))]

theorem sendMark_gated_witness :
    sendMark (some ReadyState.OPEN)
      { isActive := false, callId := none, contactId := none, contactName := none }
      "recording_started" = none :=
  (sendMark_gated (some ReadyState.OPEN)
    { isActive := false, callId := none, contactId := none, contactName := none }
    "recording_started").2 rfl rfl

end CallerFrontend
